import Mathlib

/-!
Shallow embedding of the `LianaAdapter` ETL transform from
`src/template_package/adapters/liana_adapter.py`.

A pandas `DataFrame` is modelled as a list of column names together with a
list of rows, each row being a list of cells aligned with the columns.  A
cell is `none` for a null/NaN entry and `some s` for a string value.  The
logger is modelled as a list of emitted events (level plus message), and a
raised `ValueError` is modelled by `Except.error` carrying the message.
`pd.read_parquet` is modelled by an `Option DataFrame` argument: `none`
stands for a read that raises `FileNotFoundError`, `some df` for a
successful read of the file's contents.
-/

/-- A tabular cell: `none` models a null/NaN entry, `some s` a string value. -/
abbrev Cell := Option String

/-- Python `str`/f-string rendering of a cell: a string renders verbatim and a
NaN renders as "nan". -/
def showCell : Cell → String
  | some s => s
  | none => "nan"

/-- Fuel-driven helper for `decimalDigits`; the fuel only bounds the
recursion depth and any fuel above the argument gives the same digits. -/
def decimalDigitsAux (fuel : Nat) (n : Nat) : List Char :=
  match fuel with
  | 0 => []
  | fuel + 1 =>
    if n < 10 then [Nat.digitChar n]
    else decimalDigitsAux fuel (n / 10) ++ [Nat.digitChar (n % 10)]

/-- Decimal digits (most significant first) of a natural number, exactly the
characters Python `str` produces for a non-negative int. -/
def decimalDigits (n : Nat) : List Char := decimalDigitsAux (n + 1) n

/-- Python `str` of a non-negative int, used to embed f-string int fields. -/
def decimalRepr (n : Nat) : String := ⟨decimalDigits n⟩

/-- A single-quote character, written by code point to build Python `repr`
output of strings. -/
def sglq : String := String.singleton (Char.ofNat 39)

/-- Python `str` of a list of strings, e.g. a result of
`['ligand', 'receptor']`. -/
def pyStrList (l : List String) : String :=
  "[" ++ String.intercalate ", " (l.map (fun s => sglq ++ s ++ sglq)) ++ "]"

/-- Python `str` of a dict mapping strings to ints, e.g. of
`value_counts().to_dict()`. -/
def pyStrNatDict (l : List (String × Nat)) : String :=
  "\x7b" ++ String.intercalate ", " (l.map (fun p => sglq ++ p.1 ++ sglq ++ ": " ++ decimalRepr p.2)) ++ "\x7d"

/-- One emitted logger event: level and message. -/
inductive LogEvent where
  | info (msg : String)
  | warning (msg : String)
  | debug (msg : String)
deriving DecidableEq

/-- A pandas DataFrame: named columns and rows of cells aligned with them. -/
structure DataFrame where
  cols : List String
  rows : List (List Cell)
deriving DecidableEq

/-- Row access `row[c]` by column name; `none` when the column is absent or
the cell is not paired with a column. -/
def rowGet (cols : List String) (row : List Cell) (c : String) : Cell :=
  match (cols.zip row).find? (fun p => p.1 == c) with
  | some p => p.2
  | none => none

/-- `pd.DataFrame()`: the empty frame with no columns and no rows. -/
def emptyFrame : DataFrame := ⟨[], []⟩

/-- `df["species"] = sp` when the column is absent (the per-file species tag
injected by `_load_data`). -/
def addSpeciesIfMissing (df : DataFrame) (sp : String) : DataFrame :=
  if df.cols.contains "species" then df
  else ⟨df.cols ++ ["species"], df.rows.map (fun r => r ++ [some sp])⟩

/-- Align one row with the column set of the concatenated frame; cells of
absent columns become null, as in `pd.concat`. -/
def reindexRow (oldCols newCols : List String) (row : List Cell) : List Cell :=
  newCols.map (fun c => rowGet oldCols row c)

/-- `pd.concat([a, b], ignore_index=True)`: union of columns in order of
first appearance, rows of `a` then rows of `b`, reindexed from 0. -/
def concatFrames (a b : DataFrame) : DataFrame :=
  let cols := a.cols ++ b.cols.filter (fun c => !(a.cols.contains c))
  ⟨cols, a.rows.map (reindexRow a.cols cols) ++ b.rows.map (reindexRow b.cols cols)⟩

/-- The required columns checked by `_load_data`. -/
def requiredCols : List String := ["ligand", "receptor", "species"]

/-- `[col for col in required_cols if col not in full_df.columns]`. -/
def missingCols (df : DataFrame) : List String :=
  requiredCols.filter (fun c => !(df.cols.contains c))

/-- The `ValueError` message of `_load_data`. -/
def validationMsg (missing found : List String) : String :=
  "Missing required columns: " ++ pyStrList missing ++ ". Found columns: " ++ pyStrList found

/-- The non-null values of the `species` column, in row order. -/
def speciesNonNull (df : DataFrame) : List String :=
  df.rows.filterMap (fun r => rowGet df.cols r "species")

/-- Distinct values in order of first appearance (pandas hashtable order). -/
def dedupFirst (l : List String) : List String :=
  l.foldl (fun acc v => if v ∈ acc then acc else acc ++ [v]) []

/-- Stable insertion keeping counts in descending order. -/
def insertDesc (x : String × Nat) : List (String × Nat) → List (String × Nat)
  | [] => [x]
  | y :: ys => if y.2 ≤ x.2 then x :: y :: ys else y :: insertDesc x ys

/-- `value_counts().to_dict()` over the non-null species values: counts in
descending order, ties resolved by first appearance. -/
def valueCounts (vals : List String) : List (String × Nat) :=
  ((dedupFirst vals).map (fun v => (v, vals.count v))).foldr insertDesc []

/-- The first info message logged after successful validation. -/
def loadedMsg (df : DataFrame) : String :=
  "Loaded " ++ decimalRepr df.rows.length ++ " interactions from " ++
    decimalRepr (dedupFirst (speciesNonNull df)).length ++ " species."

/-- The species-distribution info message logged after successful validation. -/
def distMsg (df : DataFrame) : String :=
  "Species distribution: " ++ pyStrNatDict (valueCounts (speciesNonNull df))

/-- The frame obtained from one `try: read_parquet ... except FileNotFoundError`
block: the file's contents with the species tag injected when the column is
absent, or the empty frame when the read raises. -/
def readResult (content : Option DataFrame) (sp : String) : DataFrame :=
  match content with
  | some df => addSpeciesIfMissing df sp
  | none => emptyFrame

/-- The warning logged by the same block when the file is missing. -/
def readLogs (path : String) (content : Option DataFrame) : List LogEvent :=
  match content with
  | some _ => []
  | none => [LogEvent.warning ("File " ++ path ++ " not found. Skipping.")]

/-- The concatenated frame built by `_load_data` before validation. -/
def mergedFrame (h m : Option DataFrame) : DataFrame :=
  concatFrames (readResult h "human") (readResult m "mouse")

/-- The adapter object: the two file paths and the loaded merged table. -/
structure LianaAdapter where
  human_file : String
  mouse_file : String
  data : DataFrame
deriving DecidableEq

/-- `LianaAdapter._load_data`: read both files (recovering from a missing one
with an empty frame and a warning), inject species tags, concatenate, then
validate the required columns, raising `ValueError` when any is absent. -/
def LianaAdapter.load_data (human_file mouse_file : String) (h m : Option DataFrame) :
    Except String DataFrame × List LogEvent :=
  let full := mergedFrame h m
  let missing := missingCols full
  let logs := LogEvent.info "Loading Parquet files..." ::
    (readLogs human_file h ++ readLogs mouse_file m)
  if missing = [] then
    (Except.ok full, logs ++ [LogEvent.info (loadedMsg full), LogEvent.info (distMsg full)])
  else
    (Except.error (validationMsg missing full.cols), logs)

/-- `LianaAdapter.__init__`: store the paths and the result of `_load_data`;
a `ValueError` raised there propagates, so no adapter is constructed. -/
def LianaAdapter.init (human_file mouse_file : String) (h m : Option DataFrame) :
    Except String LianaAdapter × List LogEvent :=
  let r := LianaAdapter.load_data human_file mouse_file h m
  (r.1.map (fun df => ⟨human_file, mouse_file, df⟩), r.2)

/-- The per-identifier record held in the `proteins` dict of `get_nodes`. -/
structure Meta where
  species : Cell
  label : String
deriving DecidableEq

/-- `"MacromolecularComplex" if "_" in pid_str else "Protein"`. -/
def labelOf (pid : String) : String :=
  if pid.data.contains '_' then "MacromolecularComplex" else "Protein"

/-- Lookup in the insertion-ordered `proteins` dict. -/
def findMeta : List (String × Meta) → String → Option Meta
  | [], _ => none
  | q :: rest, s => if q.1 = s then some q.2 else findMeta rest s

/-- The debug message logged on a species mismatch for an already-seen id. -/
def mismatchMsg (pid : String) (old new : Cell) : String :=
  "Species mismatch for " ++ pid ++ ": keeping " ++ showCell old ++ " over new " ++ showCell new

/-- State threaded through the scan of `get_nodes`: the insertion-ordered
`proteins` dict and the log events emitted so far. -/
abbrev NodeState := List (String × Meta) × List LogEvent

/-- The body of the inner loop of `get_nodes` for one cell `pid` of the
`ligand` or `receptor` column: skip nulls, insert an unseen id with its
label and species, and log (debug) a differing species for a seen id. -/
def processCell (st : NodeState) (pid : Cell) (species : Cell) : NodeState :=
  match pid with
  | none => st
  | some pidStr =>
    match findMeta st.1 pidStr with
    | none => (st.1 ++ [(pidStr, ⟨species, labelOf pidStr⟩)], st.2)
    | some m =>
      if m.species = species then st
      else (st.1, st.2 ++ [LogEvent.debug (mismatchMsg pidStr m.species species)])

/-- One row of the scan of `get_nodes`: the `ligand` cell then the
`receptor` cell, each with the row's species. -/
def processRow (cols : List String) (st : NodeState) (row : List Cell) : NodeState :=
  processCell (processCell st (rowGet cols row "ligand") (rowGet cols row "species"))
    (rowGet cols row "receptor") (rowGet cols row "species")

/-- The full scan of `get_nodes` over the merged table. -/
def nodesState (df : DataFrame) : NodeState :=
  df.rows.foldl (processRow df.cols) ([], [])

/-- `LianaAdapter.get_nodes`: the yielded `(id, label, properties)` triples
(properties reduced to their single `species` entry) and the emitted log. -/
def LianaAdapter.get_nodes (data : DataFrame) : List (String × String × Cell) × List LogEvent :=
  let st := nodesState data
  (st.1.map (fun q => (q.1, q.2.label, q.2.species)),
   LogEvent.info "Generating Nodes..." :: st.2 ++
     [LogEvent.info ("Generated " ++ decimalRepr st.1.length ++ " unique protein/complex nodes.")])

/-- One yielded edge 5-tuple of `get_edges`. -/
structure Edge where
  id : String
  source : Cell
  target : Cell
  label : String
  props : List (String × Cell)
deriving DecidableEq

/-- The edge built from the row at positional index `idx`. -/
def mkEdge (cols : List String) (idx : Nat) (row : List Cell) : Edge :=
  let ligand := rowGet cols row "ligand"
  let receptor := rowGet cols row "receptor"
  let species := rowGet cols row "species"
  { id := showCell ligand ++ "_" ++ showCell receptor ++ "_" ++ showCell species ++ "_" ++
      decimalRepr idx,
    source := ligand,
    target := receptor,
    label := "LigandReceptorInteraction",
    props := ("species", species) ::
      (cols.filter (fun c => !(["ligand", "receptor", "species"].contains c))).map
        (fun c => (c, rowGet cols row c)) }

/-- `LianaAdapter.get_edges`: one edge per row of the merged table, in row
order, plus the emitted log. -/
def LianaAdapter.get_edges (data : DataFrame) : List Edge × List LogEvent :=
  (data.rows.enum.map (fun p => mkEdge data.cols p.1 p.2),
   [LogEvent.info "Generating Edges...",
    LogEvent.info ("Generated " ++ decimalRepr data.rows.length ++ " interaction edges.")])

/-- A `get_nodes` method call on the adapter object: it reads `self.data`,
builds a fresh local `proteins` dict, and never writes any attribute, so the
adapter after the call is returned unchanged. -/
def LianaAdapter.get_nodes_method (a : LianaAdapter) :
    (List (String × String × Cell) × List LogEvent) × LianaAdapter :=
  (LianaAdapter.get_nodes a.data, a)

/-- A `get_edges` method call on the adapter object; like `get_nodes` it only
reads `self.data`. -/
def LianaAdapter.get_edges_method (a : LianaAdapter) :
    (List Edge × List LogEvent) × LianaAdapter :=
  (LianaAdapter.get_edges a.data, a)

/-- The keys of the `proteins` dict, in insertion order. -/
def keysOf (p : List (String × Meta)) : List String := p.map Prod.fst

/-- Value of a digit string, inverse of `decimalDigits`. -/
def digitsVal (l : List Char) : Nat := l.foldl (fun a c => 10 * a + (c.toNat - 48)) 0

/-- The characters after the last underscore of a string (the positional
index suffix of an edge id). -/
def afterLastUnderscore (s : String) : List Char :=
  (s.data.reverse.takeWhile (fun c => c != '_')).reverse

/-- A one-row merged table with a plain ligand and receptor. -/
def dfHumanOne : DataFrame :=
  ⟨["ligand", "receptor", "species"], [[some "P1", some "P2", some "human"]]⟩

/-- A one-row merged table whose ligand carries a literal complex-marker
prefix ahead of an underscore-joined pair of subunits. -/
def dfComplexRow : DataFrame :=
  ⟨["ligand", "receptor", "species"], [[some "COMPLEX:P1_P2", some "P3", some "human"]]⟩

/-! ### Helper lemmas about decimal digit strings -/

theorem decimalDigitsAux_fuel_eq (f1 : Nat) : ∀ f2 n, n < f1 → n < f2 →
    decimalDigitsAux f1 n = decimalDigitsAux f2 n := by
  induction f1 with
  | zero => omega
  | succ f ih =>
    intro f2 n h1 h2
    cases f2 with
    | zero => omega
    | succ f2 =>
      simp only [decimalDigitsAux]
      by_cases h10 : n < 10
      · simp [h10]
      · have hd : n / 10 < n := Nat.div_lt_self (by omega) (by omega)
        simp only [h10, if_false]
        rw [ih f2 (n / 10) (by omega) (by omega)]

theorem decimalDigits_eq_if (n : Nat) :
    decimalDigits n =
      if n < 10 then [Nat.digitChar n]
      else decimalDigits (n / 10) ++ [Nat.digitChar (n % 10)] := by
  unfold decimalDigits
  simp only [decimalDigitsAux]
  by_cases h10 : n < 10
  · simp [h10]
  · have hd : n / 10 < n := Nat.div_lt_self (by omega) (by omega)
    simp only [h10, if_false]
    rw [decimalDigitsAux_fuel_eq n (n / 10 + 1) (n / 10) (by omega) (by omega)]
    simp only [decimalDigitsAux]

theorem digitChar_toNat_of_lt : ∀ k, k < 10 → (Nat.digitChar k).toNat - 48 = k := by decide

theorem digitChar_ne_underscore : ∀ k, k < 10 → Nat.digitChar k ≠ '_' := by decide

theorem digitsVal_append (l : List Char) (c : Char) :
    digitsVal (l ++ [c]) = 10 * digitsVal l + (c.toNat - 48) := by
  simp [digitsVal, List.foldl_append]

theorem digitsVal_decimalDigits (n : Nat) : digitsVal (decimalDigits n) = n := by
  induction n using Nat.strong_induction_on with
  | _ n ih =>
    rw [decimalDigits_eq_if]
    by_cases h10 : n < 10
    · rw [if_pos h10]
      simpa [digitsVal] using digitChar_toNat_of_lt n h10
    · have hd : n / 10 < n := Nat.div_lt_self (by omega) (by omega)
      rw [if_neg h10, digitsVal_append, ih (n / 10) hd,
        digitChar_toNat_of_lt (n % 10) (Nat.mod_lt _ (by omega))]
      omega

theorem decimalDigits_injective : Function.Injective decimalDigits := by
  intro a b hab
  have ha := digitsVal_decimalDigits a
  rw [hab, digitsVal_decimalDigits] at ha
  omega

theorem mem_decimalDigits_ne_underscore (n : Nat) : ∀ c ∈ decimalDigits n, c ≠ '_' := by
  induction n using Nat.strong_induction_on with
  | _ n ih =>
    rw [decimalDigits_eq_if]
    by_cases h10 : n < 10
    · rw [if_pos h10]
      intro c hc
      rw [List.mem_singleton.mp hc]
      exact digitChar_ne_underscore n h10
    · have hd : n / 10 < n := Nat.div_lt_self (by omega) (by omega)
      rw [if_neg h10]
      intro c hc
      rcases List.mem_append.mp hc with hc | hc
      · exact ih (n / 10) hd c hc
      · rw [List.mem_singleton.mp hc]
        exact digitChar_ne_underscore (n % 10) (Nat.mod_lt _ (by omega))

/-! ### Extracting the positional-index suffix of an edge id -/

theorem takeWhile_append_all {α : Type} (p : α → Bool) (l r : List α)
    (h : ∀ c ∈ l, p c = true) :
    (l ++ r).takeWhile p = l ++ r.takeWhile p := by
  induction l with
  | nil => simp
  | cons a l ih =>
    have ha : p a = true := h a (by simp)
    simp [List.takeWhile_cons, ha, ih (fun c hc => h c (by simp [hc]))]

theorem rev_takeWhile_underscore (xs ds : List Char) (hds : ∀ c ∈ ds, c ≠ '_') :
    ((xs ++ '_' :: ds).reverse.takeWhile (fun c => c != '_')).reverse = ds := by
  rw [List.reverse_append, List.reverse_cons, List.append_assoc]
  rw [takeWhile_append_all _ _ _ (fun c hc => by
    simpa using hds c (List.mem_reverse.mp hc))]
  simp

theorem edgeId_data (cols : List String) (idx : Nat) (row : List Cell) :
    (mkEdge cols idx row).id.data =
      ((showCell (rowGet cols row "ligand")).data ++ '_' ::
        ((showCell (rowGet cols row "receptor")).data ++ '_' ::
          (showCell (rowGet cols row "species")).data)) ++ '_' :: decimalDigits idx := by
  have hu : ("_" : String).data = ['_'] := rfl
  simp [mkEdge, decimalRepr, hu, List.append_assoc]

theorem afterLast_edgeId (cols : List String) (idx : Nat) (row : List Cell) :
    afterLastUnderscore (mkEdge cols idx row).id = decimalDigits idx := by
  unfold afterLastUnderscore
  rw [edgeId_data, rev_takeWhile_underscore _ _ (mem_decimalDigits_ne_underscore idx)]

/-! ### Helper lemmas about the proteins dict of `get_nodes` -/

theorem findMeta_none_iff (p : List (String × Meta)) (s : String) :
    findMeta p s = none ↔ s ∉ keysOf p := by
  induction p with
  | nil => simp [findMeta, keysOf]
  | cons q rest ih =>
    by_cases hq : q.1 = s
    · simp [findMeta, hq, keysOf]
    · simp [findMeta, hq, keysOf, ih, Ne.symm hq]

theorem findMeta_some_mem (p : List (String × Meta)) (s : String) (m : Meta)
    (h : findMeta p s = some m) : s ∈ keysOf p := by
  by_contra hc
  rw [← findMeta_none_iff] at hc
  rw [h] at hc
  exact Option.noConfusion hc

theorem processCell_seen (st : NodeState) (t : String) (species : Cell) (m : Meta)
    (hf : findMeta st.1 t = some m) : (processCell st (some t) species).1 = st.1 := by
  simp only [processCell, hf]
  by_cases hs : m.species = species <;> simp [hs]

theorem mem_keys_processCell (st : NodeState) (pid species : Cell) (s : String) :
    s ∈ keysOf (processCell st pid species).1 ↔ s ∈ keysOf st.1 ∨ pid = some s := by
  cases pid with
  | none => simp [processCell]
  | some t =>
    cases hf : findMeta st.1 t with
    | none =>
      simp only [processCell, hf, keysOf, List.map_append, List.map_cons, List.map_nil,
        List.mem_append, List.mem_singleton, Option.some.injEq]
      constructor
      · rintro (h | h)
        · exact Or.inl h
        · exact Or.inr h.symm
      · rintro (h | h)
        · exact Or.inl h
        · exact Or.inr h.symm
    | some m =>
      rw [processCell_seen st t species m hf]
      constructor
      · exact Or.inl
      · rintro (h | h)
        · exact h
        · obtain rfl := Option.some.inj h
          exact findMeta_some_mem st.1 t m hf

theorem nodup_keys_processCell (st : NodeState) (pid species : Cell)
    (h : (keysOf st.1).Nodup) : (keysOf (processCell st pid species).1).Nodup := by
  cases pid with
  | none => simpa [processCell]
  | some t =>
    cases hf : findMeta st.1 t with
    | none =>
      have ht : t ∉ keysOf st.1 := (findMeta_none_iff _ _).mp hf
      simp only [processCell, hf, keysOf, List.map_append]
      rw [List.nodup_append]
      refine ⟨h, by simp, ?_⟩
      intro a ha hb
      simp only [List.map_cons, List.map_nil, List.mem_singleton] at hb
      subst hb
      exact ht ha
    | some m =>
      rw [processCell_seen st t species m hf]
      exact h

theorem mem_keys_processRow (cols : List String) (st : NodeState) (row : List Cell)
    (s : String) :
    s ∈ keysOf (processRow cols st row).1 ↔
      s ∈ keysOf st.1 ∨ rowGet cols row "ligand" = some s ∨
        rowGet cols row "receptor" = some s := by
  unfold processRow
  rw [mem_keys_processCell, mem_keys_processCell]
  tauto

theorem nodup_keys_processRow (cols : List String) (st : NodeState) (row : List Cell)
    (h : (keysOf st.1).Nodup) : (keysOf (processRow cols st row).1).Nodup :=
  nodup_keys_processCell _ _ _ (nodup_keys_processCell _ _ _ h)

theorem mem_keys_foldl (cols : List String) (rows : List (List Cell)) (st : NodeState)
    (s : String) :
    s ∈ keysOf (rows.foldl (processRow cols) st).1 ↔
      s ∈ keysOf st.1 ∨
        ∃ r ∈ rows, rowGet cols r "ligand" = some s ∨ rowGet cols r "receptor" = some s := by
  induction rows generalizing st with
  | nil => simp
  | cons r rest ih =>
    rw [List.foldl_cons, ih, mem_keys_processRow]
    simp only [List.mem_cons]
    constructor
    · rintro ((h | h | h) | ⟨x, hx, hP⟩)
      · exact Or.inl h
      · exact Or.inr ⟨r, Or.inl rfl, Or.inl h⟩
      · exact Or.inr ⟨r, Or.inl rfl, Or.inr h⟩
      · exact Or.inr ⟨x, Or.inr hx, hP⟩
    · rintro (h | ⟨x, (rfl | hx), hP⟩)
      · exact Or.inl (Or.inl h)
      · rcases hP with h | h
        · exact Or.inl (Or.inr (Or.inl h))
        · exact Or.inl (Or.inr (Or.inr h))
      · exact Or.inr ⟨x, hx, hP⟩

theorem nodup_keys_foldl (cols : List String) (rows : List (List Cell)) (st : NodeState)
    (h : (keysOf st.1).Nodup) : (keysOf (rows.foldl (processRow cols) st).1).Nodup := by
  induction rows generalizing st with
  | nil => exact h
  | cons r rest ih => exact ih _ (nodup_keys_processRow _ _ _ h)

theorem labels_processCell (st : NodeState) (pid species : Cell)
    (h : ∀ q ∈ st.1, q.2.label = labelOf q.1) :
    ∀ q ∈ (processCell st pid species).1, q.2.label = labelOf q.1 := by
  cases pid with
  | none => exact h
  | some t =>
    cases hf : findMeta st.1 t with
    | none =>
      intro q hq
      simp only [processCell, hf] at hq
      rcases List.mem_append.mp hq with hq | hq
      · exact h q hq
      · rw [List.mem_singleton.mp hq]
    | some m =>
      rw [processCell_seen st t species m hf]
      exact h

theorem labels_processRow (cols : List String) (st : NodeState) (row : List Cell)
    (h : ∀ q ∈ st.1, q.2.label = labelOf q.1) :
    ∀ q ∈ (processRow cols st row).1, q.2.label = labelOf q.1 :=
  labels_processCell _ _ _ (labels_processCell _ _ _ h)

theorem labels_foldl (cols : List String) (rows : List (List Cell)) (st : NodeState)
    (h : ∀ q ∈ st.1, q.2.label = labelOf q.1) :
    ∀ q ∈ (rows.foldl (processRow cols) st).1, q.2.label = labelOf q.1 := by
  induction rows generalizing st with
  | nil => exact h
  | cons r rest ih => exact ih _ (labels_processRow _ _ _ h)

theorem node_ids_eq_keys (df : DataFrame) :
    (LianaAdapter.get_nodes df).1.map (fun n => n.1) = keysOf (nodesState df).1 := by
  simp only [LianaAdapter.get_nodes, List.map_map, keysOf]
  rfl

/-! ### Claim theorems -/

/-- C1: for every merged table, every non-null identifier value appearing in
any row's ligand or receptor column appears exactly once as the node id of a
yielded triple of `get_nodes`, regardless of which column or row it appeared
in and of how many times it occurs. -/
theorem node_ids_exactly_once (df : DataFrame) (s : String)
    (h : ∃ r ∈ df.rows,
      rowGet df.cols r "ligand" = some s ∨ rowGet df.cols r "receptor" = some s) :
    ((LianaAdapter.get_nodes df).1.map (fun n => n.1)).count s = 1 := by
  rw [node_ids_eq_keys]
  have hmem : s ∈ keysOf (nodesState df).1 :=
    (mem_keys_foldl df.cols df.rows ([], []) s).mpr (Or.inr h)
  have hnd : (keysOf (nodesState df).1).Nodup :=
    nodup_keys_foldl df.cols df.rows ([], []) (by simp [keysOf])
  exact List.count_eq_one_of_mem hnd hmem

/-- Witness for C1 at a concrete one-row merged table. -/
theorem node_ids_exactly_once_witness :
    ((LianaAdapter.get_nodes dfHumanOne).1.map (fun n => n.1)).count "P1" = 1 :=
  node_ids_exactly_once dfHumanOne "P1"
    ⟨[some "P1", some "P2", some "human"], by decide, Or.inl (by decide)⟩

/-- C2: `get_edges` yields exactly one edge per row of the merged table, with
no filtering or deduplication, so the edge count equals the row count. -/
theorem edges_one_per_row (df : DataFrame) :
    (LianaAdapter.get_edges df).1.length = df.rows.length := by
  simp [LianaAdapter.get_edges]

/-- C3: the type label of every yielded node is a pure function of its
identifier string alone: `MacromolecularComplex` exactly when the string
contains an underscore, `Protein` otherwise. -/
theorem node_label_pure_function (df : DataFrame) (n : String × String × Cell)
    (hn : n ∈ (LianaAdapter.get_nodes df).1) :
    n.2.1 = if n.1.data.contains '_' then "MacromolecularComplex" else "Protein" := by
  have hl := labels_foldl df.cols df.rows ([], []) (by simp)
  simp only [LianaAdapter.get_nodes] at hn
  obtain ⟨q, hq, rfl⟩ := List.mem_map.mp hn
  simpa [labelOf] using hl q hq

/-- Witness for C3 at a concrete complex-labelled node. -/
theorem node_label_pure_function_witness :
    (("COMPLEX:P1_P2", "MacromolecularComplex", (some "human" : Cell)) :
        String × String × Cell).2.1 =
      if ("COMPLEX:P1_P2" : String).data.contains '_' then "MacromolecularComplex"
      else "Protein" :=
  node_label_pure_function dfComplexRow
    ("COMPLEX:P1_P2", "MacromolecularComplex", some "human") (by decide)

/-- C4 counterexample: an identifier carrying the literal marker
"COMPLEX:P1_P2" is NOT stripped: the produced node id keeps the prefix, no
node with id "P1_P2" exists, and the edge endpoint keeps the prefix too. -/
theorem complex_marker_not_stripped :
    (LianaAdapter.get_nodes dfComplexRow).1.map (fun n => n.1) = ["COMPLEX:P1_P2", "P3"] ∧
    "P1_P2" ∉ (LianaAdapter.get_nodes dfComplexRow).1.map (fun n => n.1) ∧
    (LianaAdapter.get_edges dfComplexRow).1.map (fun e => e.source) =
      [some "COMPLEX:P1_P2"] := by
  refine ⟨by decide, by decide, by decide⟩

/-- C4 amended: no marker stripping occurs anywhere; the raw identifier
string is used verbatim as the node id in `get_nodes` and as the edge
endpoint in `get_edges`, so node ids and edge endpoint ids agree. -/
theorem identifiers_used_verbatim (df : DataFrame) :
    (∀ n ∈ (LianaAdapter.get_nodes df).1,
      ∃ r ∈ df.rows,
        rowGet df.cols r "ligand" = some n.1 ∨ rowGet df.cols r "receptor" = some n.1) ∧
    (∀ e ∈ (LianaAdapter.get_edges df).1,
      ∃ r ∈ df.rows,
        e.source = rowGet df.cols r "ligand" ∧ e.target = rowGet df.cols r "receptor") ∧
    (∀ e ∈ (LianaAdapter.get_edges df).1, ∀ s : String,
      e.source = some s ∨ e.target = some s →
        s ∈ (LianaAdapter.get_nodes df).1.map (fun n => n.1)) := by
  refine ⟨?_, ?_, ?_⟩
  · intro n hn
    simp only [LianaAdapter.get_nodes] at hn
    obtain ⟨q, hq, rfl⟩ := List.mem_map.mp hn
    have hk : q.1 ∈ keysOf (nodesState df).1 := List.mem_map_of_mem Prod.fst hq
    rcases (mem_keys_foldl df.cols df.rows ([], []) q.1).mp hk with h2 | h2
    · simp [keysOf] at h2
    · exact h2
  · intro e he
    simp only [LianaAdapter.get_edges] at he
    obtain ⟨p, hp, rfl⟩ := List.mem_map.mp he
    have hr : p.2 ∈ df.rows := by
      have := List.mem_map_of_mem Prod.snd hp
      rwa [List.enum_map_snd] at this
    exact ⟨p.2, hr, by simp [mkEdge], by simp [mkEdge]⟩
  · intro e he s hs
    simp only [LianaAdapter.get_edges] at he
    obtain ⟨p, hp, rfl⟩ := List.mem_map.mp he
    have hr : p.2 ∈ df.rows := by
      have := List.mem_map_of_mem Prod.snd hp
      rwa [List.enum_map_snd] at this
    rw [node_ids_eq_keys]
    refine (mem_keys_foldl df.cols df.rows ([], []) s).mpr (Or.inr ⟨p.2, hr, ?_⟩)
    rcases hs with hs | hs
    · left
      rw [← hs]
      simp [mkEdge]
    · right
      rw [← hs]
      simp [mkEdge]

/-- Witness for the amended C4: the marker-carrying node id of the concrete
table is a verbatim cell value of the table. -/
theorem identifiers_used_verbatim_witness :
    ∃ r ∈ dfComplexRow.rows,
      rowGet dfComplexRow.cols r "ligand" = some "COMPLEX:P1_P2" ∨
      rowGet dfComplexRow.cols r "receptor" = some "COMPLEX:P1_P2" :=
  (identifiers_used_verbatim dfComplexRow).1
    ("COMPLEX:P1_P2", "MacromolecularComplex", some "human") (by decide)

/-- C5: when any required column is absent from the merged table, loading
fails with a `ValueError` whose message is built from exactly the missing
required columns and the columns actually present; in particular a merged
table lacking "species" lists "species" among the missing columns. -/
theorem missing_columns_raise (human_file mouse_file : String) (h m : Option DataFrame)
    (hmiss : missingCols (mergedFrame h m) ≠ []) :
    (LianaAdapter.load_data human_file mouse_file h m).1 =
      Except.error (validationMsg (missingCols (mergedFrame h m)) (mergedFrame h m).cols) ∧
    ("species" ∉ (mergedFrame h m).cols → "species" ∈ missingCols (mergedFrame h m)) := by
  constructor
  · simp only [LianaAdapter.load_data]
    rw [if_neg hmiss]
  · intro hsp
    simp only [missingCols, requiredCols, List.mem_filter]
    exact ⟨by simp, by simp [hsp]⟩

/-- Witness for C5: with both files absent the merged table has no columns,
so all three required columns are missing. -/
theorem missing_columns_raise_witness :
    ((LianaAdapter.load_data "human.parquet" "mouse.parquet" none none).1 =
      Except.error
        (validationMsg (missingCols (mergedFrame none none)) (mergedFrame none none).cols) ∧
    ("species" ∉ (mergedFrame none none).cols →
      "species" ∈ missingCols (mergedFrame none none))) :=
  missing_columns_raise "human.parquet" "mouse.parquet" none none (by decide)

/-! ### Helper lemmas for recovering a single missing file -/

theorem rowGet_cons_self (c : String) (cs : List String) (v : Cell) (vs : List Cell) :
    rowGet (c :: cs) (v :: vs) c = v := by
  simp [rowGet]

theorem rowGet_cons_ne (c x : String) (cs : List String) (v : Cell) (vs : List Cell)
    (h : c ≠ x) : rowGet (c :: cs) (v :: vs) x = rowGet cs vs x := by
  unfold rowGet
  rw [List.zip_cons_cons, List.find?_cons_of_neg _ (by simp [h])]

theorem map_rowGet_self (cols : List String) (row : List Cell)
    (hnd : cols.Nodup) (hlen : row.length = cols.length) :
    cols.map (rowGet cols row) = row := by
  induction cols generalizing row with
  | nil =>
    simp only [List.length_nil] at hlen
    rw [List.length_eq_zero.mp hlen]
    simp
  | cons c cs ih =>
    cases row with
    | nil => simp at hlen
    | cons v vs =>
      simp only [List.length_cons] at hlen
      obtain ⟨hc, hcs⟩ := List.nodup_cons.mp hnd
      rw [List.map_cons, rowGet_cons_self]
      congr 1
      calc cs.map (rowGet (c :: cs) (v :: vs)) = cs.map (rowGet cs vs) :=
            List.map_congr_left (fun x hx => rowGet_cons_ne c x cs v vs
              (fun he => hc (by rw [he]; exact hx)))
        _ = vs := ih vs hcs (by omega)

theorem reindexRow_self (cols : List String) (row : List Cell) (hnd : cols.Nodup)
    (hlen : row.length = cols.length) : reindexRow cols cols row = row :=
  map_rowGet_self cols row hnd hlen

theorem concatFrames_empty_right (A : DataFrame) (hnd : A.cols.Nodup)
    (hlen : ∀ r ∈ A.rows, r.length = A.cols.length) :
    concatFrames A emptyFrame = A := by
  cases A with
  | mk cols rows =>
    simp only [concatFrames, emptyFrame, List.filter_nil, List.append_nil, List.map_nil,
      DataFrame.mk.injEq]
    refine ⟨trivial, ?_⟩
    calc rows.map (reindexRow cols cols) = rows.map (fun r => r) :=
          List.map_congr_left (fun r hr => reindexRow_self cols r hnd (hlen r hr))
      _ = rows := List.map_id' rows

theorem concatFrames_empty_left (B : DataFrame) (hnd : B.cols.Nodup)
    (hlen : ∀ r ∈ B.rows, r.length = B.cols.length) :
    concatFrames emptyFrame B = B := by
  cases B with
  | mk cols rows =>
    have hf : cols.filter (fun c => !(List.contains [] c)) = cols :=
      List.filter_eq_self.mpr (fun a _ => by simp)
    simp only [concatFrames, emptyFrame, List.map_nil, List.nil_append, hf,
      DataFrame.mk.injEq]
    refine ⟨trivial, ?_⟩
    calc rows.map (reindexRow cols cols) = rows.map (fun r => r) :=
          List.map_congr_left (fun r hr => reindexRow_self cols r hnd (hlen r hr))
      _ = rows := List.map_id' rows

theorem addSpecies_cols_nodup (df : DataFrame) (sp : String) (hnd : df.cols.Nodup) :
    (addSpeciesIfMissing df sp).cols.Nodup := by
  unfold addSpeciesIfMissing
  by_cases hs : df.cols.contains "species" = true
  · rw [if_pos hs]
    exact hnd
  · rw [if_neg hs]
    rw [List.nodup_append]
    refine ⟨hnd, by simp, ?_⟩
    intro a ha hb
    simp only [List.mem_singleton] at hb
    subst hb
    have hsp : "species" ∉ df.cols := by simpa using hs
    exact hsp ha

theorem addSpecies_rows_len (df : DataFrame) (sp : String)
    (hlen : ∀ r ∈ df.rows, r.length = df.cols.length) :
    ∀ r ∈ (addSpeciesIfMissing df sp).rows,
      r.length = (addSpeciesIfMissing df sp).cols.length := by
  unfold addSpeciesIfMissing
  by_cases hs : df.cols.contains "species" = true
  · rw [if_pos hs]
    exact hlen
  · rw [if_neg hs]
    intro r hr
    simp only [List.mem_map] at hr
    obtain ⟨r0, hr0, rfl⟩ := hr
    simp [hlen r0 hr0]

theorem addSpecies_mem_cols (df : DataFrame) (sp c : String) (hc : c ∈ df.cols) :
    c ∈ (addSpeciesIfMissing df sp).cols := by
  unfold addSpeciesIfMissing
  by_cases hs : df.cols.contains "species" = true
  · rw [if_pos hs]
    exact hc
  · rw [if_neg hs]
    exact List.mem_append_left _ hc

theorem addSpecies_species_mem (df : DataFrame) (sp : String) :
    "species" ∈ (addSpeciesIfMissing df sp).cols := by
  unfold addSpeciesIfMissing
  by_cases hs : df.cols.contains "species" = true
  · rw [if_pos hs]
    simpa using hs
  · rw [if_neg hs]
    simp

theorem addSpecies_rows_length (df : DataFrame) (sp : String) :
    (addSpeciesIfMissing df sp).rows.length = df.rows.length := by
  unfold addSpeciesIfMissing
  by_cases hs : df.cols.contains "species" = true
  · rw [if_pos hs]
  · rw [if_neg hs]
    simp

theorem missingCols_eq_nil (A : DataFrame) (h1 : "ligand" ∈ A.cols)
    (h2 : "receptor" ∈ A.cols) (h3 : "species" ∈ A.cols) : missingCols A = [] := by
  simp only [missingCols, requiredCols, List.filter_eq_nil_iff]
  intro a ha
  simp only [List.mem_cons, List.not_mem_nil, or_false] at ha
  rcases ha with rfl | rfl | rfl <;> simp [h1, h2, h3]

/-- C6: if exactly one of the two input files is absent, loading does not
fail: the missing read is substituted by the empty frame (no columns, no
rows), a warning naming the missing path is logged, and the merged table is
exactly the present file's species-tagged table, with its row count
preserved; this holds for either absent file and for any well-formed
present table carrying the ligand and receptor columns. -/
theorem missing_one_file_recovered (human_file mouse_file : String) (df : DataFrame)
    (hnd : df.cols.Nodup) (hlen : ∀ r ∈ df.rows, r.length = df.cols.length)
    (hlig : "ligand" ∈ df.cols) (hrec : "receptor" ∈ df.cols) :
    (readResult none "human" = emptyFrame ∧ readResult none "mouse" = emptyFrame ∧
      emptyFrame.cols = [] ∧ emptyFrame.rows = []) ∧
    ((LianaAdapter.load_data human_file mouse_file (some df) none).1 =
        Except.ok (addSpeciesIfMissing df "human") ∧
      LogEvent.warning ("File " ++ mouse_file ++ " not found. Skipping.") ∈
        (LianaAdapter.load_data human_file mouse_file (some df) none).2 ∧
      (addSpeciesIfMissing df "human").rows.length = df.rows.length) ∧
    ((LianaAdapter.load_data human_file mouse_file none (some df)).1 =
        Except.ok (addSpeciesIfMissing df "mouse") ∧
      LogEvent.warning ("File " ++ human_file ++ " not found. Skipping.") ∈
        (LianaAdapter.load_data human_file mouse_file none (some df)).2 ∧
      (addSpeciesIfMissing df "mouse").rows.length = df.rows.length) := by
  have hfullH : mergedFrame (some df) none = addSpeciesIfMissing df "human" :=
    concatFrames_empty_right _ (addSpecies_cols_nodup df "human" hnd)
      (addSpecies_rows_len df "human" hlen)
  have hfullM : mergedFrame none (some df) = addSpeciesIfMissing df "mouse" :=
    concatFrames_empty_left _ (addSpecies_cols_nodup df "mouse" hnd)
      (addSpecies_rows_len df "mouse" hlen)
  have hmissH : missingCols (mergedFrame (some df) none) = [] := by
    rw [hfullH]
    exact missingCols_eq_nil _ (addSpecies_mem_cols df "human" _ hlig)
      (addSpecies_mem_cols df "human" _ hrec) (addSpecies_species_mem df "human")
  have hmissM : missingCols (mergedFrame none (some df)) = [] := by
    rw [hfullM]
    exact missingCols_eq_nil _ (addSpecies_mem_cols df "mouse" _ hlig)
      (addSpecies_mem_cols df "mouse" _ hrec) (addSpecies_species_mem df "mouse")
  refine ⟨⟨rfl, rfl, rfl, rfl⟩, ⟨?_, ?_, addSpecies_rows_length df "human"⟩,
    ⟨?_, ?_, addSpecies_rows_length df "mouse"⟩⟩
  · simp only [LianaAdapter.load_data]
    rw [if_pos hmissH, hfullH]
  · simp only [LianaAdapter.load_data]
    rw [if_pos hmissH]
    simp [readLogs]
  · simp only [LianaAdapter.load_data]
    rw [if_pos hmissM, hfullM]
  · simp only [LianaAdapter.load_data]
    rw [if_pos hmissM]
    simp [readLogs]

/-- Witness for C6 at the concrete one-row human table with the mouse file
absent: loading succeeds with exactly that table (1 row, species value list
["human"]) and logs the warning for the missing mouse file. -/
theorem missing_one_file_recovered_witness :
    (LianaAdapter.load_data "human.parquet" "mouse.parquet" (some dfHumanOne) none).1 =
      Except.ok (addSpeciesIfMissing dfHumanOne "human") ∧
    LogEvent.warning "File mouse.parquet not found. Skipping." ∈
      (LianaAdapter.load_data "human.parquet" "mouse.parquet" (some dfHumanOne) none).2 ∧
    (addSpeciesIfMissing dfHumanOne "human").rows.length = dfHumanOne.rows.length ∧
    addSpeciesIfMissing dfHumanOne "human" = dfHumanOne ∧
    dfHumanOne.rows.length = 1 ∧ speciesNonNull dfHumanOne = ["human"] := by
  obtain ⟨-, ⟨h1, h2, h3⟩, -⟩ :=
    missing_one_file_recovered "human.parquet" "mouse.parquet" dfHumanOne
      (by decide) (by decide) (by decide) (by decide)
  exact ⟨h1, h2, h3, rfl, rfl, rfl⟩

/-- C7: edge ids are globally unique: the positional-index suffix makes the
ids of any two distinct rows distinct, even for identical
(source, target, species) triples. -/
theorem edge_ids_globally_unique (df : DataFrame) :
    ((LianaAdapter.get_edges df).1.map Edge.id).Nodup := by
  apply List.Nodup.of_map afterLastUnderscore
  have h1 : ((LianaAdapter.get_edges df).1.map Edge.id).map afterLastUnderscore =
      df.rows.enum.map (fun p => decimalDigits p.1) := by
    simp only [LianaAdapter.get_edges, List.map_map]
    exact List.map_congr_left (fun p _ => afterLast_edgeId df.cols p.1 p.2)
  have h2 : df.rows.enum.map (fun p => decimalDigits p.1) =
      (df.rows.enum.map Prod.fst).map decimalDigits := by
    rw [List.map_map]
    rfl
  rw [h1, h2, List.enum_map_fst]
  exact (List.nodup_range _).map decimalDigits_injective

/-- C8: deduplication is first-seen-wins: a later occurrence of a seen
identifier with a differing species leaves the stored record unchanged and
only appends a debug log event. -/
theorem first_seen_wins (p : List (String × Meta)) (l : List LogEvent) (pid : String)
    (sp : Cell) (m : Meta) (hf : findMeta p pid = some m) (hne : m.species ≠ sp) :
    processCell (p, l) (some pid) sp =
      (p, l ++ [LogEvent.debug (mismatchMsg pid m.species sp)]) := by
  simp [processCell, hf, hne]

/-- Witness for C8: a seen "P1" recorded as human, re-encountered as mouse. -/
theorem first_seen_wins_witness :
    processCell ([("P1", ⟨some "human", "Protein"⟩)], []) (some "P1") (some "mouse") =
      ([("P1", ⟨some "human", "Protein"⟩)],
        [LogEvent.debug (mismatchMsg "P1" (some "human") (some "mouse"))]) :=
  first_seen_wins [("P1", ⟨some "human", "Protein"⟩)] [] "P1" (some "mouse")
    ⟨some "human", "Protein"⟩ rfl (by decide)

/-- C9: both producers are deterministic pure functions of the loaded merged
table: a method call leaves the adapter unchanged and a second call yields
the identical sequence. -/
theorem producers_pure (a : LianaAdapter) :
    (LianaAdapter.get_nodes_method a).2 = a ∧
    (LianaAdapter.get_nodes_method ((LianaAdapter.get_nodes_method a).2)).1 =
      (LianaAdapter.get_nodes_method a).1 ∧
    (LianaAdapter.get_edges_method a).2 = a ∧
    (LianaAdapter.get_edges_method ((LianaAdapter.get_edges_method a).2)).1 =
      (LianaAdapter.get_edges_method a).1 :=
  ⟨rfl, rfl, rfl, rfl⟩

/-- C10: with both input files absent, each read is recovered with an empty
frame (logging one warning per file) but the merged table has no columns, so
validation raises the `ValueError` naming all three required columns and
adapter construction never completes. -/
theorem both_files_missing_construction_fails (human_file mouse_file : String) :
    (LianaAdapter.init human_file mouse_file none none).1 =
      Except.error (validationMsg requiredCols []) ∧
    LogEvent.warning ("File " ++ human_file ++ " not found. Skipping.") ∈
      (LianaAdapter.init human_file mouse_file none none).2 ∧
    LogEvent.warning ("File " ++ mouse_file ++ " not found. Skipping.") ∈
      (LianaAdapter.init human_file mouse_file none none).2 := by
  have hne : ¬ (missingCols (mergedFrame none none) = []) := by decide
  refine ⟨rfl, ?_, ?_⟩
  · simp only [LianaAdapter.init, LianaAdapter.load_data, readLogs]
    rw [if_neg hne]
    simp
  · simp only [LianaAdapter.init, LianaAdapter.load_data, readLogs]
    rw [if_neg hne]
    simp
